import Mathlib

set_option autoImplicit false

/-
Shallow embedding of the two adapter classes of this repository:

* `StudyDataset` (kedro_datasets/optuna/study_dataset.py): an optuna Study stored in a
  relational database, with kedro-style versioning of the study name.
* `DartsTorchModelDataset` (kedro_datasets_experimental/darts/darts_torch_model_dataset.py):
  a Darts TorchForecastingModel persisted to a filesystem.

Python dicts are modelled as association lists with unique keys; Python heap mutation
(`dict.pop` on shared dicts, `copy.deepcopy`) is modelled with an explicit heap of dict
cells; external collaborators (the SQLAlchemy URL builder, the optuna backend, the kedro
version generator, the fsspec filesystem) are modelled as oracle parameters or as the
records of the arguments the code hands them.
-/

universe u v

/-!  Python dict primitives.  `dictLookup` models `d[k]` / `k in d`, `dictErase` models
     removal of the (unique) entry with key `k`, and `dictPop` models `d.pop(k)`. -/

def dictLookup {α : Type u} : List (String × α) → String → Option α
  | [], _ => none
  | (k, v) :: rest, key => if k = key then some v else dictLookup rest key

def dictErase {α : Type u} : List (String × α) → String → List (String × α)
  | [], _ => []
  | (k, v) :: rest, key => if k = key then rest else (k, v) :: dictErase rest key

def dictPop {α : Type u} (d : List (String × α)) (key : String) :
    Option α × List (String × α) :=
  (dictLookup d key, dictErase d key)

def dictKeys {α : Type u} (d : List (String × α)) : List String := d.map Prod.fst

theorem dictErase_of_lookup_none {α : Type u} (d : List (String × α)) (key : String)
    (h : dictLookup d key = none) : dictErase d key = d := by
  induction d with
  | nil => rfl
  | cons kv rest ih =>
    obtain ⟨k, w⟩ := kv
    by_cases hk : k = key
    · simp [dictLookup, hk] at h
    · simp only [dictLookup, hk, if_false] at h
      simp [dictErase, hk, ih h]

theorem dictLookup_erase_none {α : Type u} (d : List (String × α)) (k k' : String)
    (h : dictLookup d k = none) : dictLookup (dictErase d k') k = none := by
  induction d with
  | nil => rfl
  | cons kv rest ih =>
    obtain ⟨a, w⟩ := kv
    by_cases ha : a = k
    · simp [dictLookup, ha] at h
    · simp only [dictLookup, ha, if_false] at h
      by_cases ha' : a = k'
      · simpa [dictErase, ha'] using h
      · simp [dictErase, ha', dictLookup, ha, ih h]

theorem dictLookup_eq_none_of_not_mem_keys {α : Type u} (d : List (String × α)) (k : String)
    (h : k ∉ dictKeys d) : dictLookup d k = none := by
  induction d with
  | nil => rfl
  | cons kv rest ih =>
    obtain ⟨a, w⟩ := kv
    simp only [dictKeys, List.map_cons, List.mem_cons] at h
    push_neg at h
    have ha : a ≠ k := fun hak => h.1 hak.symm
    simp [dictLookup, ha, ih (by simpa [dictKeys] using h.2)]

theorem dictLookup_erase_self_of_nodup {α : Type u} (d : List (String × α)) (k : String)
    (h : (dictKeys d).Nodup) : dictLookup (dictErase d k) k = none := by
  induction d with
  | nil => rfl
  | cons kv rest ih =>
    obtain ⟨a, w⟩ := kv
    rw [dictKeys, List.map_cons, List.nodup_cons] at h
    by_cases ha : a = k
    · subst ha
      rw [show dictErase ((a, w) :: rest) a = rest by simp [dictErase]]
      exact dictLookup_eq_none_of_not_mem_keys rest a h.1
    · simp [dictErase, ha, dictLookup, ha, ih h.2]

theorem dictLookup_map {α : Type u} {β : Type v} (f : α → β) (d : List (String × α))
    (k : String) :
    dictLookup (d.map (fun kv => (kv.1, f kv.2))) k = (dictLookup d k).map f := by
  induction d with
  | nil => rfl
  | cons kv rest ih =>
    obtain ⟨a, w⟩ := kv
    by_cases ha : a = k <;> simp [dictLookup, ha, ih]

theorem dictErase_map {α : Type u} {β : Type v} (f : α → β) (d : List (String × α))
    (k : String) :
    dictErase (d.map (fun kv => (kv.1, f kv.2))) k =
      (dictErase d k).map (fun kv => (kv.1, f kv.2)) := by
  induction d with
  | nil => rfl
  | cons kv rest ih =>
    obtain ⟨a, w⟩ := kv
    by_cases ha : a = k <;> simp [dictErase, ha, ih]

theorem dictLookup_mem {α : Type u} (d : List (String × α)) (k : String) (v : α)
    (h : dictLookup d k = some v) : ∃ k', (k', v) ∈ d := by
  induction d with
  | nil => simp [dictLookup] at h
  | cons kv rest ih =>
    obtain ⟨a, w⟩ := kv
    by_cases ha : a = k
    · have hw : w = v := by simpa [dictLookup, ha] using h
      exact ⟨a, by simp [← hw]⟩
    · simp only [dictLookup, ha, if_false] at h
      obtain ⟨k', hk'⟩ := ih h
      exact ⟨k', List.mem_cons_of_mem _ hk'⟩

theorem dictErase_subset {α : Type u} (d : List (String × α)) (k : String) :
    ∀ kv, kv ∈ dictErase d k → kv ∈ d := by
  induction d with
  | nil => intro kv h; simp [dictErase] at h
  | cons av rest ih =>
    obtain ⟨a, w⟩ := av
    intro kv h
    by_cases ha : a = k
    · simp only [dictErase, ha, if_true] at h
      exact List.mem_cons_of_mem _ h
    · simp only [dictErase, ha, if_false, List.mem_cons] at h
      rcases h with h | h
      · exact h ▸ List.mem_cons_self _ _
      · exact List.mem_cons_of_mem _ (ih kv h)

/-!  Model of `pathlib.PurePosixPath` as used by `StudyDataset._get_versioned_path`.
     A pure path is a flag (absolute?) plus a list of segments; parsing a string splits
     on `/` and drops empty and `"."` segments; joining with an absolute right operand
     discards the left operand.  (The POSIX double-leading-slash root special case is
     not modelled; no claim exercises it.) -/

def splitSlash : List Char → List (List Char)
  | [] => [[]]
  | c :: rest =>
    if c = '/' then [] :: splitSlash rest
    else
      match splitSlash rest with
      | [] => [[c]]
      | s :: ss => (c :: s) :: ss

structure PPath where
  absolute : Bool
  segments : List String
deriving DecidableEq, Repr

def ppSegments (s : String) : List String :=
  ((splitSlash s.toList).filter (fun g => !g.isEmpty && !(g == ['.']))).map
    (fun g => String.mk g)

def ppAbsolute (s : String) : Bool :=
  match s.toList with
  | '/' :: _ => true
  | _ => false

def ppParse (s : String) : PPath :=
  { absolute := ppAbsolute s, segments := ppSegments s }

def ppJoin (p q : PPath) : PPath :=
  if q.absolute then q
  else { absolute := p.absolute, segments := p.segments ++ q.segments }

def joinSegs : List String → String
  | [] => ""
  | [s] => s
  | s :: rest => s ++ "/" ++ joinSegs rest

def ppStr (p : PPath) : String :=
  if p.absolute then "/" ++ joinSegs p.segments
  else if p.segments = [] then "." else joinSegs p.segments

/-!  `StudyDataset` versioned name resolution.

     `kedro.io.core.Version` is a named tuple `(load, save)`; a `StudyDataset` holds
     `Option KVersion` (`None` = versioning disabled; a `Version` value is a nonempty
     tuple, hence always truthy).  The latest-version lookup
     (`_fetch_latest_load_version`) and the save-version generator
     (`resolve_save_version`, kedro's timestamp) are external collaborators, passed
     as the oracle strings `latest` / `autoVersion`. -/

structure KVersion where
  load : Option String
  save : Option String
deriving DecidableEq

def getVersionedPath (studyName version : String) : PPath :=
  ppJoin (ppJoin (ppParse studyName) (ppParse version)) (ppParse studyName)

def resolveLoadVersionSome (v : KVersion) (latest : String) : String :=
  match v.load with
  | some lv => if lv = "" then latest else lv
  | none => latest

def resolveLoadVersion (version : Option KVersion) (latest : String) : Option String :=
  match version with
  | none => none
  | some v => some (resolveLoadVersionSome v latest)

def getLoadStudyName (studyName : String) (version : Option KVersion) (latest : String) :
    String :=
  match version with
  | none => studyName
  | some v => ppStr (getVersionedPath studyName (resolveLoadVersionSome v latest))

def resolveSaveVersionSome (v : KVersion) (autoVersion : String) : String :=
  match v.save with
  | some sv => if sv = "" then autoVersion else sv
  | none => autoVersion

inductive DatasetErr where
  | datasetError (msg : String)
deriving DecidableEq

def versionConflictMsg (versionedName selfRepr : String) : String :=
  "Study name \x27" ++ versionedName ++ "\x27 for " ++ selfRepr ++
    " must not exist if versioning is enabled."

def getSaveStudyName (studyName : String) (version : Option KVersion) (autoVersion : String)
    (selfRepr : String) (existsFn : String → Bool) : Except DatasetErr String :=
  match version with
  | none => Except.ok studyName
  | some v =>
    let saveVersion := resolveSaveVersionSome v autoVersion
    let versionedName := ppStr (getVersionedPath studyName saveVersion)
    if existsFn versionedName then
      Except.error (DatasetErr.datasetError (versionConflictMsg versionedName selfRepr))
    else Except.ok versionedName

/--  The backend operations `StudyDataset.save` can request from the external optuna /
     os collaborators, in order. -/
inductive StudyOp where
  | makedirs
  | createEmptyStudy
  | deleteStudy (name : String)
  | copyStudy (name : String)
deriving DecidableEq

/--  `StudyDataset.save`: first resolve the save study name (raising on a version
     conflict), then for a sqlite backend ensure the database file exists, then delete
     any study already stored under the target name, then copy the study graph.
     `existsFn` is `_study_name_exists`, `sqliteFileIsFile` is `os.path.isfile`. -/
def studySave (backend studyName : String) (version : Option KVersion)
    (autoVersion : String) (selfRepr : String) (existsFn : String → Bool)
    (sqliteFileIsFile : Bool) : List StudyOp × Option DatasetErr :=
  match getSaveStudyName studyName version autoVersion selfRepr existsFn with
  | Except.error e => ([], some e)
  | Except.ok saveStudyName =>
    let ops := if backend = "sqlite" then
        [StudyOp.makedirs] ++ (if sqliteFileIsFile then [] else [StudyOp.createEmptyStudy])
      else []
    let ops := ops ++ (if existsFn saveStudyName then [StudyOp.deleteStudy saveStudyName] else [])
    (ops ++ [StudyOp.copyStudy saveStudyName], none)

/-!  `StudyDataset.__init__` storage-URL construction.  The process environment and
     the SQLAlchemy `URL.create` collaborator are modelled explicitly; `URL.create` is
     determined by the keyword arguments the code passes it, recorded in `StorageURL`. -/

structure EnvVars where
  dbUsername : Option String
  dbPassword : Option String
  dbHost : Option String
  dbPort : Option String
deriving DecidableEq

abbrev CredDict := List (String × Option String)

def envCredentialsDict (env : EnvVars) : CredDict :=
  [("username", env.dbUsername), ("password", env.dbPassword),
   ("host", env.dbHost), ("port", env.dbPort)]

def dictSetItem {α : Type u} (d : List (String × α)) (key : String) (v : α) :
    List (String × α) :=
  if (dictLookup d key).isSome then
    d.map (fun kv => if kv.1 = key then (key, v) else kv)
  else d ++ [(key, v)]

/--  Python `d1 |= d2` (in-place dict union: entries of `d2` override). -/
def dictUpdate {α : Type u} (d1 d2 : List (String × α)) : List (String × α) :=
  d2.foldl (fun acc kv => dictSetItem acc kv.1 kv.2) d1

structure StorageURL where
  drivername : String
  database : String
  username : Option String
  password : Option String
  host : Option String
  port : Option String
deriving DecidableEq

def urlCreate (drivername database : String) (creds : CredDict) : StorageURL :=
  { drivername := drivername, database := database,
    username := (dictLookup creds "username").join,
    password := (dictLookup creds "password").join,
    host := (dictLookup creds "host").join,
    port := (dictLookup creds "port").join }

/--  The storage-URL computation of `StudyDataset.__init__`.  The line
     `credentials = dict(username=os.getenv("DB_USERNAME"), ...)` rebinds the name
     `credentials`, shadowing the constructor parameter; `_credentials` is then a
     deepcopy of that environment dict (four keys, hence truthy, so `or` keeps it),
     `credentials |= _credentials` merges the dict with its own copy, and the truthy
     `if _credentials:` guard always runs `URL.create`.  Were the guard skipped,
     `str(storage)` would raise `NameError`, modelled as `none`. -/
def studyDatasetInitStorage (backend database : String) (env : EnvVars)
    (credentialsArg : Option CredDict) : Option StorageURL :=
  let credentials := envCredentialsDict env
  let hcredentials := if credentials.isEmpty then [] else credentials
  let credentials := dictUpdate credentials hcredentials
  if hcredentials.isEmpty then none
  else some (urlCreate backend database credentials)

/-!  Claims C1 through C4. -/

/-- Claim C1: `StudyDataset.__init__` discards any explicitly passed `credentials`
argument unconditionally: for every pair of explicit credentials mappings (including
`None`), the same backend, database and environment yield the same storage URL, the
connection credentials being taken solely from `DB_USERNAME`, `DB_PASSWORD`, `DB_HOST`
and `DB_PORT`. -/
theorem initStorage_discards_explicit_credentials (backend database : String)
    (env : EnvVars) (c1 c2 : Option CredDict) :
    studyDatasetInitStorage backend database env c1 =
        studyDatasetInitStorage backend database env c2 ∧
      (studyDatasetInitStorage backend database env c1).isSome = true :=
  ⟨rfl, rfl⟩

/-- Claim C4: with versioning disabled (no `Version` supplied), both the resolved load
study name and the resolved save study name are the logical study name unchanged, for
every study name and every oracle. -/
theorem unversioned_resolution_identity (studyName latest autoVersion selfRepr : String)
    (existsFn : String → Bool) :
    getLoadStudyName studyName none latest = studyName ∧
    getSaveStudyName studyName none autoVersion selfRepr existsFn =
      Except.ok studyName :=
  ⟨rfl, rfl⟩

/-- Claim C2: with versioning enabled, if the existence check reports the resolved
versioned save identifier as present, `StudyDataset.save` fails with a `DatasetError`
and requests no backend operation at all — in particular neither the delete nor the
copy operation. -/
theorem versioned_save_conflict_aborts (backend studyName autoVersion selfRepr : String)
    (v : KVersion) (existsFn : String → Bool) (sqliteFileIsFile : Bool)
    (hconf : existsFn
      (ppStr (getVersionedPath studyName (resolveSaveVersionSome v autoVersion))) = true) :
    studySave backend studyName (some v) autoVersion selfRepr existsFn sqliteFileIsFile =
      ([], some (DatasetErr.datasetError (versionConflictMsg
        (ppStr (getVersionedPath studyName (resolveSaveVersionSome v autoVersion)))
        selfRepr))) := by
  simp [studySave, getSaveStudyName, hconf]

theorem versioned_save_conflict_aborts_witness :
    studySave "postgresql" "study1" (some ⟨none, some "2024-01-01T00.00.00"⟩) "auto" "ds"
        (fun _ => true) false =
      ([], some (DatasetErr.datasetError (versionConflictMsg
        (ppStr (getVersionedPath "study1"
          (resolveSaveVersionSome ⟨none, some "2024-01-01T00.00.00"⟩ "auto"))) "ds"))) :=
  versioned_save_conflict_aborts "postgresql" "study1" "auto" "ds"
    ⟨none, some "2024-01-01T00.00.00"⟩ (fun _ => true) false rfl

/-- Claim C3 counterexample: the claim quantifies over every logical name and version
token, but with logical name `"study1"` and version token `""` the code's
`PurePosixPath` join yields `"study1/study1"`, not the three-segment string
`"study1" ++ "/" ++ "" ++ "/" ++ "study1"`. -/
theorem versioned_path_empty_token_counterexample :
    ppStr (getVersionedPath "study1" "") = "study1/study1" ∧
    ppStr (getVersionedPath "study1" "") ≠ "study1" ++ "/" ++ "" ++ "/" ++ "study1" := by
  constructor
  · rfl
  · decide

/-- Claim C3 (amended): for every logical name and version token that are plain path
segments — each parses as a relative `PurePosixPath` with itself as single segment,
i.e. is nonempty, is not `"."` and contains no slash — the versioned identifier is the
three-segment path `logical_name/version_token/logical_name`; in particular for name
`"study1"` and save version `"2024-01-01T00.00.00"` it is
`"study1/2024-01-01T00.00.00/study1"`. -/
theorem versioned_path_three_segments (studyName version : String)
    (hs : ppParse studyName = ⟨false, [studyName]⟩)
    (hv : ppParse version = ⟨false, [version]⟩) :
    ppStr (getVersionedPath studyName version) =
      studyName ++ "/" ++ version ++ "/" ++ studyName := by
  simp [getVersionedPath, ppJoin, hs, hv, ppStr, joinSegs, String.append_assoc]

theorem versioned_path_three_segments_witness :
    ppStr (getVersionedPath "study1" "2024-01-01T00.00.00") =
      "study1/2024-01-01T00.00.00/study1" :=
  (versioned_path_three_segments "study1" "2024-01-01T00.00.00"
    (by decide) (by decide)).trans (by decide)

/-!  `DartsTorchModelDataset`.  Python values appearing in its `load_args`/`save_args`
     dicts are modelled as strings, booleans and `None`; the Darts model-class methods
     and the kedro/fsspec path helpers are external collaborators whose invocations are
     recorded as effects, in program order. -/

inductive DPyVal where
  | dStr (s : String)
  | dBool (b : Bool)
  | dNone
deriving DecidableEq, Repr

abbrev DDict := List (String × DPyVal)

/--  Python truthiness of the modelled values. -/
def dTruthy : DPyVal → Bool
  | DPyVal.dStr s => decide (s ≠ "")
  | DPyVal.dBool b => b
  | DPyVal.dNone => false

/--  Rendering used by the f-string in the unknown-load-method error. -/
def dpyStr : DPyVal → String
  | DPyVal.dStr s => s
  | DPyVal.dBool true => "True"
  | DPyVal.dBool false => "False"
  | DPyVal.dNone => "None"

inductive DartsErr where
  | valueError (msg : String)
deriving DecidableEq

inductive DLoadEffect where
  | resolveLoadPath
  | callLoad (kwargs : DDict)
  | callLoadFromCheckpoint (modelName : DPyVal) (kwargs : DDict)
  | callLoadWeights (kwargs : DDict)
  | callLoadWeightsFromCheckpoint (modelName : DPyVal) (kwargs : DDict)
deriving DecidableEq

structure LoadedModel where
  method : String
  modelName : Option DPyVal
  kwargs : DDict
deriving DecidableEq

def mnMissingMsg (method : String) : String :=
  "model_name must be provided for \x27" ++ method ++ "\x27 method"

/--  `DartsTorchModelDataset.load`: copy `self._load_args`, pop `load_method`
     (default `"load"`), dispatch on it; the checkpoint variants pop `model_name`
     (default `None`) and raise `ValueError` when it is `None`, before any call that
     touches the filesystem. -/
def dartsLoad (loadArgs : DDict) : List DLoadEffect × Except DartsErr LoadedModel :=
  let p := dictPop loadArgs "load_method"
  let la := p.2
  let loadMethod := p.1.getD (DPyVal.dStr "load")
  if loadMethod = DPyVal.dStr "load" then
    ([DLoadEffect.resolveLoadPath, DLoadEffect.callLoad la],
      Except.ok { method := "load", modelName := none, kwargs := la })
  else if loadMethod = DPyVal.dStr "load_from_checkpoint" then
    let q := dictPop la "model_name"
    let la2 := q.2
    let modelName := q.1.getD DPyVal.dNone
    if modelName = DPyVal.dNone then
      ([], Except.error (DartsErr.valueError (mnMissingMsg "load_from_checkpoint")))
    else
      ([DLoadEffect.callLoadFromCheckpoint modelName la2],
        Except.ok { method := "load_from_checkpoint", modelName := some modelName,
                    kwargs := la2 })
  else if loadMethod = DPyVal.dStr "load_weights" then
    ([DLoadEffect.resolveLoadPath, DLoadEffect.callLoadWeights la],
      Except.ok { method := "load_weights", modelName := none, kwargs := la })
  else if loadMethod = DPyVal.dStr "load_weights_from_checkpoint" then
    let q := dictPop la "model_name"
    let la2 := q.2
    let modelName := q.1.getD DPyVal.dNone
    if modelName = DPyVal.dNone then
      ([], Except.error (DartsErr.valueError (mnMissingMsg "load_weights_from_checkpoint")))
    else
      ([DLoadEffect.callLoadWeightsFromCheckpoint modelName la2],
        Except.ok { method := "load_weights_from_checkpoint", modelName := some modelName,
                    kwargs := la2 })
  else
    ([], Except.error (DartsErr.valueError ("Unknown load method: " ++ dpyStr loadMethod)))

inductive DSaveEffect where
  | getSavePath
  | makedirs
  | toFilepathStr
  | callModelSave (kwargs : DDict)
deriving DecidableEq

/--  `DartsTorchModelDataset.save`: copy `self._save_args`, pop `save_model` (default
     `True`); when truthy, resolve the save path, create the containing directory and
     call the model's `save` with the remaining kwargs; otherwise do nothing. -/
def dartsSave (saveArgs : DDict) : List DSaveEffect :=
  let p := dictPop saveArgs "save_model"
  let sa := p.2
  let saveModel := p.1.getD (DPyVal.dBool true)
  if dTruthy saveModel then
    [DSaveEffect.getSavePath, DSaveEffect.makedirs, DSaveEffect.toFilepathStr,
      DSaveEffect.callModelSave sa]
  else []

inductive FsExc where
  | datasetError (msg : String)
  | otherError (msg : String)
deriving DecidableEq

/--  The body of the `try` block of `DartsTorchModelDataset._exists`: resolve the load
     path, then query the filesystem collaborator. -/
def dartsExistsTry (loadPathResult : Except FsExc String)
    (fsExists : String → Except FsExc Bool) : Except FsExc Bool :=
  match loadPathResult with
  | Except.error e => Except.error e
  | Except.ok p => fsExists p

/--  `DartsTorchModelDataset._exists`: the `try` body guarded by
     `except DatasetError: return False`. -/
def dartsExists (loadPathResult : Except FsExc String)
    (fsExists : String → Except FsExc Bool) : Except FsExc Bool :=
  match dartsExistsTry loadPathResult fsExists with
  | Except.error (FsExc.datasetError _) => Except.ok false
  | r => r

/-!  Claims C5, C6 and C9. -/

/-- Claim C5 counterexample: the claim says every exception raised by the filesystem
collaborator during the check makes `_exists` return `False`, but a failure that is not
a `DatasetError` (here a permission error) propagates out of `_exists` instead. -/
theorem darts_exists_propagates_non_dataset_error :
    dartsExists (Except.ok "model.pt")
        (fun _ => Except.error (FsExc.otherError "PermissionError")) =
      Except.error (FsExc.otherError "PermissionError") ∧
    dartsExists (Except.ok "model.pt")
        (fun _ => Except.error (FsExc.otherError "PermissionError")) ≠
      Except.ok false := by
  constructor
  · rfl
  · intro h
    exact Except.noConfusion h

/-- Claim C5 (amended): `_exists` treats exactly `DatasetError` as "does not exist":
if load-path resolution followed by the filesystem existence check raises a
`DatasetError`, `_exists` returns `False`; any other exception propagates unchanged. -/
theorem darts_exists_catches_dataset_error (loadPathResult : Except FsExc String)
    (fsExists : String → Except FsExc Bool) :
    (∀ msg, dartsExistsTry loadPathResult fsExists = Except.error (FsExc.datasetError msg) →
      dartsExists loadPathResult fsExists = Except.ok false) ∧
    (∀ msg, dartsExistsTry loadPathResult fsExists = Except.error (FsExc.otherError msg) →
      dartsExists loadPathResult fsExists = Except.error (FsExc.otherError msg)) := by
  constructor
  · intro msg h; simp [dartsExists, h]
  · intro msg h; simp [dartsExists, h]

theorem darts_exists_catches_dataset_error_witness :
    dartsExists (Except.error (FsExc.datasetError "VersionNotFound"))
        (fun _ => Except.ok true) =
      Except.ok false :=
  (darts_exists_catches_dataset_error
    (Except.error (FsExc.datasetError "VersionNotFound")) (fun _ => Except.ok true)).1
    "VersionNotFound" rfl

/-- Claim C6: for `load_method` `"load_from_checkpoint"` or
`"load_weights_from_checkpoint"` with no `model_name` entry in `load_args`,
`DartsTorchModelDataset.load` fails with the missing-argument `ValueError` and the
effect trace is empty — no filesystem access happens before the failure. -/
theorem darts_load_checkpoint_requires_model_name (loadArgs : DDict)
    (hmn : dictLookup loadArgs "model_name" = none) :
    (dictLookup loadArgs "load_method" = some (DPyVal.dStr "load_from_checkpoint") →
      dartsLoad loadArgs =
        ([], Except.error (DartsErr.valueError (mnMissingMsg "load_from_checkpoint")))) ∧
    (dictLookup loadArgs "load_method" = some (DPyVal.dStr "load_weights_from_checkpoint") →
      dartsLoad loadArgs =
        ([], Except.error (DartsErr.valueError
          (mnMissingMsg "load_weights_from_checkpoint")))) := by
  have hmn' : dictLookup (dictErase loadArgs "load_method") "model_name" = none :=
    dictLookup_erase_none _ _ _ hmn
  constructor
  · intro hlm
    simp [dartsLoad, dictPop, hlm, hmn']
  · intro hlm
    simp [dartsLoad, dictPop, hlm, hmn']

theorem darts_load_checkpoint_requires_model_name_witness :
    dartsLoad [("load_method", DPyVal.dStr "load_from_checkpoint")] =
      ([], Except.error (DartsErr.valueError (mnMissingMsg "load_from_checkpoint"))) :=
  (darts_load_checkpoint_requires_model_name
    [("load_method", DPyVal.dStr "load_from_checkpoint")] rfl).1 rfl

/-- Claim C9: when `save_args` sets `save_model` to `False`,
`DartsTorchModelDataset.save` performs no effect at all — no path resolution, no
directory creation, no model save; when the flag is absent it defaults to `True` and
the model is saved with the remaining kwargs. -/
theorem darts_save_model_flag (saveArgs : DDict) :
    (dictLookup saveArgs "save_model" = some (DPyVal.dBool false) →
      dartsSave saveArgs = []) ∧
    (dictLookup saveArgs "save_model" = none →
      dartsSave saveArgs =
        [DSaveEffect.getSavePath, DSaveEffect.makedirs, DSaveEffect.toFilepathStr,
          DSaveEffect.callModelSave saveArgs]) := by
  constructor
  · intro h; simp [dartsSave, dictPop, h, dTruthy]
  · intro h
    simp [dartsSave, dictPop, h, dTruthy, dictErase_of_lookup_none _ _ h]

theorem darts_save_model_flag_witness :
    dartsSave [("save_model", DPyVal.dBool false)] = [] ∧
    dartsSave [] =
      [DSaveEffect.getSavePath, DSaveEffect.makedirs, DSaveEffect.toFilepathStr,
        DSaveEffect.callModelSave []] :=
  ⟨(darts_save_model_flag [("save_model", DPyVal.dBool false)]).1 rfl,
   (darts_save_model_flag []).2 rfl⟩

/-!  Heap model for `StudyDataset.load` and the sampler/pruner config builders.

     `load` runs `deepcopy(self._load_args)` and then mutates the copy with `dict.pop`
     (both directly and inside `_get_sampler_from_config` / `_get_pruner_from_config`),
     so Python aliasing matters.  Dicts live in heap cells addressed by `Nat`; a dict
     value is a scalar (modelled as an opaque string), `None`, or a reference to
     another cell.  `deepcopy` is modelled for the two-level shape `load_args` has in
     this dataset (a dict whose values are scalars, `None`, or references to flat
     kwargs dicts) and without deepcopy's aliasing memo; the well-formedness predicate
     below restricts theorems to that shape. -/

inductive PVal where
  | vStr (s : String)
  | vNone
  | vRef (a : Nat)
deriving DecidableEq, Repr

abbrev PDict := List (String × PVal)

structure Heap where
  cells : List PDict
deriving DecidableEq

def Heap.size (h : Heap) : Nat := h.cells.length

def Heap.get (h : Heap) (a : Nat) : PDict := (h.cells[a]?).getD []

def Heap.set (h : Heap) (a : Nat) (d : PDict) : Heap := ⟨h.cells.set a d⟩

def Heap.alloc (h : Heap) (d : PDict) : Heap × Nat :=
  (⟨h.cells ++ [d]⟩, h.cells.length)

/--  `h'` extends `h`: it is at least as large and agrees on all of `h`'s cells. -/
def Heap.preserved (h h' : Heap) : Prop :=
  h.size ≤ h'.size ∧ ∀ b, b < h.size → h'.get b = h.get b

theorem Heap.preserved_refl (h : Heap) : h.preserved h :=
  ⟨Nat.le_refl _, fun _ _ => rfl⟩

theorem Heap.preserved_trans {h1 h2 h3 : Heap} (p12 : h1.preserved h2)
    (p23 : h2.preserved h3) : h1.preserved h3 :=
  ⟨Nat.le_trans p12.1 p23.1,
   fun b hb => (p23.2 b (Nat.lt_of_lt_of_le hb p12.1)).trans (p12.2 b hb)⟩

theorem Heap.size_set (h : Heap) (a : Nat) (d : PDict) : (h.set a d).size = h.size := by
  simp [Heap.set, Heap.size]

theorem Heap.get_set_ne (h : Heap) (a b : Nat) (d : PDict) (hab : a ≠ b) :
    (h.set a d).get b = h.get b := by
  simp [Heap.set, Heap.get, List.getElem?_set_ne hab]

theorem Heap.get_set_self (h : Heap) (a : Nat) (d : PDict) (ha : a < h.size) :
    (h.set a d).get a = d := by
  simp [Heap.set, Heap.get, List.getElem?_set_self (by simpa [Heap.size] using ha)]

theorem Heap.preserved_set (h : Heap) (a : Nat) (d : PDict)
    (haout : ∀ b, b < h.size → a ≠ b) : h.preserved (h.set a d) :=
  ⟨by rw [Heap.size_set], fun b hb => Heap.get_set_ne h a b d (haout b hb)⟩

theorem Heap.size_alloc (h : Heap) (d : PDict) : (h.alloc d).1.size = h.size + 1 := by
  simp [Heap.alloc, Heap.size]

theorem Heap.alloc_addr (h : Heap) (d : PDict) : (h.alloc d).2 = h.size := rfl

theorem Heap.get_alloc_self (h : Heap) (d : PDict) : (h.alloc d).1.get (h.alloc d).2 = d := by
  simp [Heap.alloc, Heap.get, List.getElem?_concat_length]

theorem Heap.get_alloc_lt (h : Heap) (d : PDict) (b : Nat) (hb : b < h.size) :
    (h.alloc d).1.get b = h.get b := by
  simp [Heap.alloc, Heap.get, List.getElem?_append_left (by simpa [Heap.size] using hb)]

theorem Heap.preserved_alloc (h : Heap) (d : PDict) : h.preserved (h.alloc d).1 :=
  ⟨by rw [Heap.size_alloc]; exact Nat.le_succ _,
   fun b hb => Heap.get_alloc_lt h d b hb⟩

theorem Heap.preserved_set_of (base h : Heap) (a : Nat) (d : PDict)
    (hp : base.preserved h) (ha : base.size ≤ a) : base.preserved (h.set a d) :=
  ⟨by rw [Heap.size_set]; exact hp.1,
   fun b hb => by
     rw [Heap.get_set_ne h a b d (by omega)]
     exact hp.2 b hb⟩

/--  `copy.deepcopy` of a dict value: a reference is replaced by a reference to a fresh
     cell holding a copy of the referenced dict (the dataset's nested config dicts are
     flat, so one level of copying is the whole deepcopy). -/
def deepcopyVal (h : Heap) : PVal → Heap × PVal
  | PVal.vRef a =>
    let r := h.alloc (h.get a)
    (r.1, PVal.vRef r.2)
  | v => (h, v)

def copyEntries (h : Heap) : PDict → Heap × PDict
  | [] => (h, [])
  | (k, v) :: rest =>
    let r1 := deepcopyVal h v
    let r2 := copyEntries r1.1 rest
    (r2.1, (k, r1.2) :: r2.2)

/--  `copy.deepcopy(self._load_args)`: copy every entry, then allocate the copied
     top-level dict; returns the new heap and the address of the copy. -/
def deepcopyDict (h : Heap) (a : Nat) : Heap × Nat :=
  let r := copyEntries h (h.get a)
  r.1.alloc r.2

/--  A heap value with its reference resolved to the referenced dict's contents. -/
inductive RVal where
  | rStr (s : String)
  | rNone
  | rDict (d : PDict)
deriving DecidableEq, Repr

def resolveVal (h : Heap) : PVal → RVal
  | PVal.vStr s => RVal.rStr s
  | PVal.vNone => RVal.rNone
  | PVal.vRef a => RVal.rDict (h.get a)

abbrev RDict := List (String × RVal)

def snapshotOf (h : Heap) (d : PDict) : RDict :=
  d.map (fun kv => (kv.1, resolveVal h kv.2))

/--  The reference-free contents of the dict at `a`: its entries with references
     replaced by the referenced dicts.  This is what `self._load_args` denotes. -/
def snapshotDict (h : Heap) (a : Nat) : RDict := snapshotOf h (h.get a)

def refsOf (d : PDict) : List Nat :=
  d.filterMap (fun kv => match kv.2 with
    | PVal.vRef b => some b
    | _ => none)

/-!  The sampler/pruner builders.  `_get_sampler_from_config` and
     `_get_pruner_from_config` are textual twins differing only in the registry
     (`optuna.samplers` vs `optuna.pruners`, modelled as the list of class names the
     module exposes) and in the wording of the missing-`class` error; both wrap the
     shared core `getStrategyFromConfig`.  A constructed strategy records the resolved
     class name and the kwargs dict passed to the constructor. -/

inductive Strategy where
  | mk (className : String) (kwargs : PDict)
deriving DecidableEq, Repr

inductive StudyExc where
  | valueError (msg : String)
  | attributeError (name : String)
  | typeError (msg : String)
  | keyError (key : String)
deriving DecidableEq, Repr

def missingClassMsg (kind studyName : String) : String :=
  ("Optuna " ++ kind ++ " `class` should be specified when trying to load study named `")
    ++ studyName ++ ("` with a " ++ kind ++ ".")

def listHasInfix (pat : List Char) : List Char → Bool
  | [] => List.isPrefixOf pat []
  | c :: rest => List.isPrefixOf pat (c :: rest) || listHasInfix pat rest

/--  Python `pat in s` for strings: substring containment. -/
def strContains (s pat : String) : Bool := listHasInfix pat.toList s.toList

/--  Core of `_get_sampler_from_config` / `_get_pruner_from_config`:
     `None` config returns `None`; a dict config must contain `"class"` (else
     `ValueError` naming the study), whose value is popped (mutating the config dict)
     and looked up in the registry (`getattr`, raising `AttributeError` when absent);
     the class is instantiated with the remaining entries as kwargs.  A string config
     hits Python's substring semantics of `"class" not in cfg` and then fails. -/
def getStrategyFromConfig (h : Heap) (missingMsg : String) (registry : List String) :
    PVal → Heap × Except StudyExc (Option Strategy)
  | PVal.vNone => (h, Except.ok none)
  | PVal.vStr s =>
    if strContains s "class" then (h, Except.error (StudyExc.attributeError "pop"))
    else (h, Except.error (StudyExc.valueError missingMsg))
  | PVal.vRef a =>
    let d := h.get a
    if (dictLookup d "class").isSome then
      let p := dictPop d "class"
      let h2 := h.set a p.2
      match p.1 with
      | some (PVal.vStr c) =>
        if registry.contains c then (h2, Except.ok (some (Strategy.mk c p.2)))
        else (h2, Except.error (StudyExc.attributeError c))
      | some _ => (h2, Except.error (StudyExc.typeError "attribute name must be string"))
      | none => (h2, Except.error (StudyExc.keyError "class"))
    else (h, Except.error (StudyExc.valueError missingMsg))

def getSamplerFromConfig (h : Heap) (studyName : String) (samplerRegistry : List String)
    (cfg : PVal) : Heap × Except StudyExc (Option Strategy) :=
  getStrategyFromConfig h (missingClassMsg "sampler" studyName) samplerRegistry cfg

def getPrunerFromConfig (h : Heap) (studyName : String) (prunerRegistry : List String)
    (cfg : PVal) : Heap × Except StudyExc (Option Strategy) :=
  getStrategyFromConfig h (missingClassMsg "pruner" studyName) prunerRegistry cfg

/--  The same construction on a resolved (reference-free) config value; used to state
     that `load`'s result depends only on the contents of `self._load_args`. -/
def buildStrategyR (missingMsg : String) (registry : List String) :
    RVal → Except StudyExc (Option Strategy)
  | RVal.rNone => Except.ok none
  | RVal.rStr s =>
    if strContains s "class" then Except.error (StudyExc.attributeError "pop")
    else Except.error (StudyExc.valueError missingMsg)
  | RVal.rDict d =>
    if (dictLookup d "class").isSome then
      let p := dictPop d "class"
      match p.1 with
      | some (PVal.vStr c) =>
        if registry.contains c then Except.ok (some (Strategy.mk c p.2))
        else Except.error (StudyExc.attributeError c)
      | some _ => Except.error (StudyExc.typeError "attribute name must be string")
      | none => Except.error (StudyExc.keyError "class")
    else Except.error (StudyExc.valueError missingMsg)

/--  One `load_args.pop(key)` followed by the strategy build on the popped config
     (`KeyError` when the key is absent, as for Python's no-default `pop`). -/
def popBuild (h : Heap) (ca : Nat) (key missingMsg : String) (reg : List String) :
    Heap × Except StudyExc (Option Strategy) :=
  let p := dictPop (h.get ca) key
  let h2 := h.set ca p.2
  match p.1 with
  | none => (h2, Except.error (StudyExc.keyError key))
  | some cv => getStrategyFromConfig h2 missingMsg reg cv

def popBuildR (snap : RDict) (key missingMsg : String) (reg : List String) :
    RDict × Except StudyExc (Option Strategy) :=
  let p := dictPop snap key
  match p.1 with
  | none => (p.2, Except.error (StudyExc.keyError key))
  | some cv => (p.2, buildStrategyR missingMsg reg cv)

/--  What `StudyDataset.load` hands to the external `optuna.load_study` call:
     the resolved study name and the two built strategy objects. -/
structure LoadRequest where
  studyName : String
  sampler : Option Strategy
  pruner : Option Strategy
deriving DecidableEq, Repr

/--  `StudyDataset.load`: deepcopy `self._load_args`, pop `"sampler"` and build the
     sampler, then pop `"pruner"` and build the pruner (each build mutating the popped
     config dict), and request the study load.  Exceptions propagate with the heap as
     mutated so far. -/
def studyLoad (h : Heap) (loadArgsAddr : Nat) (studyName : String)
    (samplerRegistry prunerRegistry : List String) (loadStudyName : String) :
    Heap × Except StudyExc LoadRequest :=
  let c := deepcopyDict h loadArgsAddr
  let s := popBuild c.1 c.2 "sampler" (missingClassMsg "sampler" studyName) samplerRegistry
  match s.2 with
  | Except.error e => (s.1, Except.error e)
  | Except.ok sampler =>
    let pr := popBuild s.1 c.2 "pruner" (missingClassMsg "pruner" studyName) prunerRegistry
    match pr.2 with
    | Except.error e => (pr.1, Except.error e)
    | Except.ok pruner => (pr.1, Except.ok ⟨loadStudyName, sampler, pruner⟩)

/--  The pure counterpart of `studyLoad` on a snapshot of `self._load_args`. -/
def requestOfSnapshot (snap : RDict) (studyName : String)
    (samplerRegistry prunerRegistry : List String) (loadStudyName : String) :
    Except StudyExc LoadRequest :=
  let s := popBuildR snap "sampler" (missingClassMsg "sampler" studyName) samplerRegistry
  match s.2 with
  | Except.error e => Except.error e
  | Except.ok sampler =>
    let pr := popBuildR s.1 "pruner" (missingClassMsg "pruner" studyName) prunerRegistry
    match pr.2 with
    | Except.error e => Except.error e
    | Except.ok pruner => Except.ok ⟨loadStudyName, sampler, pruner⟩

def isFlatDict (d : PDict) : Bool :=
  d.all (fun kv => match kv.2 with
    | PVal.vRef _ => false
    | _ => true)

def wfVal (h : Heap) : PVal → Bool
  | PVal.vRef b => decide (b < h.size) && isFlatDict (h.get b)
  | _ => true

/--  Well-formed `self._load_args` cell: a valid address whose references point to
     in-bounds, flat (reference-free) config dicts — the shape produced by the
     dataset's constructor and the only one on which the two-level deepcopy model is
     faithful to Python's recursive deepcopy. -/
def wfLoadArgs (h : Heap) (a : Nat) : Bool :=
  decide (a < h.size) && (h.get a).all (fun kv => wfVal h kv.2)

/-!  Supporting lemmas: snapshots, copied entries, reference bookkeeping. -/

theorem snapshotOf_cons (h : Heap) (k : String) (v : PVal) (rest : PDict) :
    snapshotOf h ((k, v) :: rest) = (k, resolveVal h v) :: snapshotOf h rest := rfl

theorem snapshotOf_congr (d : PDict) (h h' : Heap)
    (hc : ∀ kv ∈ d, ∀ b, kv.2 = PVal.vRef b → h'.get b = h.get b) :
    snapshotOf h' d = snapshotOf h d := by
  induction d with
  | nil => rfl
  | cons kv rest ih =>
    obtain ⟨k, v⟩ := kv
    have hrest := ih (fun kv hkv b hb => hc kv (List.mem_cons_of_mem _ hkv) b hb)
    rw [snapshotOf_cons, snapshotOf_cons, hrest]
    cases v with
    | vRef b =>
      rw [show resolveVal h' (PVal.vRef b) = resolveVal h (PVal.vRef b) by
        simp [resolveVal, hc (k, PVal.vRef b) (List.mem_cons_self _ _) b rfl]]
    | vStr s => rfl
    | vNone => rfl

theorem refsOf_cons_ref (k : String) (c : Nat) (rest : PDict) :
    refsOf ((k, PVal.vRef c) :: rest) = c :: refsOf rest := rfl

theorem refsOf_cons_str (k s : String) (rest : PDict) :
    refsOf ((k, PVal.vStr s) :: rest) = refsOf rest := rfl

theorem refsOf_cons_none (k : String) (rest : PDict) :
    refsOf ((k, PVal.vNone) :: rest) = refsOf rest := rfl

theorem entry_ref_mem_refsOf (d : PDict) (kv : String × PVal) (b : Nat)
    (hm : kv ∈ d) (hb : kv.2 = PVal.vRef b) : b ∈ refsOf d := by
  rw [refsOf]
  exact List.mem_filterMap.mpr ⟨kv, hm, by rw [hb]⟩

theorem refsOf_erase_sublist (d : PDict) (key : String) :
    List.Sublist (refsOf (dictErase d key)) (refsOf d) := by
  induction d with
  | nil => simp [dictErase]
  | cons kv rest ih =>
    obtain ⟨k, v⟩ := kv
    by_cases hk : k = key
    · rw [show dictErase ((k, v) :: rest) key = rest by simp [dictErase, hk]]
      cases v with
      | vRef c => rw [refsOf_cons_ref]; exact List.sublist_cons_self _ _
      | vStr s => rw [refsOf_cons_str]
      | vNone => rw [refsOf_cons_none]
    · rw [show dictErase ((k, v) :: rest) key = (k, v) :: dictErase rest key by
        simp [dictErase, hk]]
      cases v with
      | vRef c => rw [refsOf_cons_ref, refsOf_cons_ref]; exact ih.cons₂ _
      | vStr s => rw [refsOf_cons_str, refsOf_cons_str]; exact ih
      | vNone => rw [refsOf_cons_none, refsOf_cons_none]; exact ih

theorem refs_erase_not_mem (d : PDict) (key : String) (b : Nat)
    (hnd : (refsOf d).Nodup) (hl : dictLookup d key = some (PVal.vRef b)) :
    b ∉ refsOf (dictErase d key) := by
  induction d with
  | nil => simp [dictLookup] at hl
  | cons kv rest ih =>
    obtain ⟨k, v⟩ := kv
    by_cases hk : k = key
    · have hv : v = PVal.vRef b := by simpa [dictLookup, hk] using hl
      subst hv
      rw [show dictErase ((k, PVal.vRef b) :: rest) key = rest by simp [dictErase, hk]]
      rw [refsOf_cons_ref] at hnd
      exact (List.nodup_cons.mp hnd).1
    · have hl' : dictLookup rest key = some (PVal.vRef b) := by
        simpa [dictLookup, hk] using hl
      have hbrest : b ∈ refsOf rest := by
        obtain ⟨k', hk'⟩ := dictLookup_mem rest key _ hl'
        exact entry_ref_mem_refsOf rest (k', PVal.vRef b) b hk' rfl
      rw [show dictErase ((k, v) :: rest) key = (k, v) :: dictErase rest key by
        simp [dictErase, hk]]
      cases v with
      | vRef c =>
        rw [refsOf_cons_ref] at hnd
        have hnc := List.nodup_cons.mp hnd
        rw [refsOf_cons_ref]
        simp only [List.mem_cons]
        rintro (hbc | hbm)
        · exact hnc.1 (hbc ▸ hbrest)
        · exact ih hnc.2 hl' hbm
      | vStr s =>
        rw [refsOf_cons_str] at hnd
        rw [refsOf_cons_str]
        exact ih hnd hl'
      | vNone =>
        rw [refsOf_cons_none] at hnd
        rw [refsOf_cons_none]
        exact ih hnd hl'

theorem copyEntries_preserved (d : PDict) : ∀ h : Heap, h.preserved (copyEntries h d).1 := by
  induction d with
  | nil =>
    intro h
    exact Heap.preserved_refl h
  | cons kv rest ih =>
    intro h
    obtain ⟨k, v⟩ := kv
    cases v with
    | vRef a =>
      exact Heap.preserved_trans (Heap.preserved_alloc h (h.get a)) (ih _)
    | vStr s => exact ih h
    | vNone => exact ih h

theorem copyEntries_refs_range (d : PDict) : ∀ h : Heap,
    ∀ kv ∈ (copyEntries h d).2, ∀ b, kv.2 = PVal.vRef b →
      h.size ≤ b ∧ b < (copyEntries h d).1.size := by
  induction d with
  | nil =>
    intro h kv hkv
    simp [copyEntries] at hkv
  | cons kv0 rest ih =>
    intro h kv hkv b hb
    obtain ⟨k, v⟩ := kv0
    cases v with
    | vRef a =>
      simp only [copyEntries, deepcopyVal, List.mem_cons] at hkv ⊢
      rcases hkv with rfl | hmem
      · simp only at hb
        injection hb with hba
        subst hba
        constructor
        · rw [Heap.alloc_addr]
        · rw [Heap.alloc_addr]
          have h1 := (copyEntries_preserved rest (h.alloc (h.get a)).1).1
          rw [Heap.size_alloc] at h1
          omega
      · have := ih _ kv hmem b hb
        rw [Heap.size_alloc] at this
        exact ⟨by omega, this.2⟩
    | vStr s =>
      simp only [copyEntries, deepcopyVal, List.mem_cons] at hkv ⊢
      rcases hkv with rfl | hmem
      · simp at hb
      · exact ih h kv hmem b hb
    | vNone =>
      simp only [copyEntries, deepcopyVal, List.mem_cons] at hkv ⊢
      rcases hkv with rfl | hmem
      · simp at hb
      · exact ih h kv hmem b hb

theorem copyEntries_refs_nodup (d : PDict) : ∀ h : Heap,
    (refsOf (copyEntries h d).2).Nodup := by
  induction d with
  | nil => intro h; simp [copyEntries, refsOf]
  | cons kv0 rest ih =>
    intro h
    obtain ⟨k, v⟩ := kv0
    cases v with
    | vRef a =>
      simp only [copyEntries, deepcopyVal]
      rw [refsOf_cons_ref]
      refine List.nodup_cons.mpr ⟨?_, ih _⟩
      intro hmem
      obtain ⟨kv, hkv, hb⟩ := List.mem_filterMap.mp hmem
      have hb' : kv.2 = PVal.vRef (h.alloc (h.get a)).2 := by
        cases hv : kv.2 <;> rw [hv] at hb <;> simp at hb
        rw [hb]
      have := copyEntries_refs_range rest (h.alloc (h.get a)).1 kv hkv _ hb'
      rw [Heap.size_alloc, Heap.alloc_addr] at this
      omega
    | vStr s =>
      simp only [copyEntries, deepcopyVal]
      rw [refsOf_cons_str]
      exact ih h
    | vNone =>
      simp only [copyEntries, deepcopyVal]
      rw [refsOf_cons_none]
      exact ih h

theorem copyEntries_snapshot (d : PDict) : ∀ (h h' : Heap),
    (∀ kv ∈ d, ∀ b, kv.2 = PVal.vRef b → b < h.size) →
    (copyEntries h d).1.preserved h' →
    snapshotOf h' (copyEntries h d).2 = snapshotOf h d := by
  induction d with
  | nil => intro h h' _ _; rfl
  | cons kv0 rest ih =>
    intro h h' hwf hp
    obtain ⟨k, v⟩ := kv0
    cases v with
    | vRef a =>
      simp only [copyEntries, deepcopyVal] at hp ⊢
      rw [snapshotOf_cons, snapshotOf_cons]
      have hwfrest : ∀ kv ∈ rest, ∀ b, kv.2 = PVal.vRef b →
          b < (h.alloc (h.get a)).1.size := by
        intro kv hkv b hb
        have := hwf kv (List.mem_cons_of_mem _ hkv) b hb
        rw [Heap.size_alloc]
        omega
      have htail := ih (h.alloc (h.get a)).1 h' hwfrest hp
      have htail2 : snapshotOf (h.alloc (h.get a)).1 rest = snapshotOf h rest := by
        apply snapshotOf_congr
        intro kv hkv b hb
        exact Heap.get_alloc_lt h (h.get a) b (hwf kv (List.mem_cons_of_mem _ hkv) b hb)
      rw [htail, htail2]
      have haddr : h'.get (h.alloc (h.get a)).2 = h.get a := by
        have h1p : (h.alloc (h.get a)).1.preserved h' :=
          Heap.preserved_trans (copyEntries_preserved rest _) hp
        rw [h1p.2 _ (by rw [Heap.alloc_addr, Heap.size_alloc]; omega)]
        exact Heap.get_alloc_self h (h.get a)
      simp [resolveVal, haddr]
    | vStr s =>
      simp only [copyEntries, deepcopyVal] at hp ⊢
      rw [snapshotOf_cons, snapshotOf_cons,
        ih h h' (fun kv hkv => hwf kv (List.mem_cons_of_mem _ hkv)) hp]
      rfl
    | vNone =>
      simp only [copyEntries, deepcopyVal] at hp ⊢
      rw [snapshotOf_cons, snapshotOf_cons,
        ih h h' (fun kv hkv => hwf kv (List.mem_cons_of_mem _ hkv)) hp]
      rfl

theorem getStrategy_result_eq (h : Heap) (msg : String) (reg : List String) (v : PVal) :
    (getStrategyFromConfig h msg reg v).2 = buildStrategyR msg reg (resolveVal h v) := by
  cases v with
  | vNone => rfl
  | vStr s =>
    by_cases hc : strContains s "class" <;>
      simp [getStrategyFromConfig, buildStrategyR, resolveVal, hc]
  | vRef a =>
    by_cases hcl : dictLookup (h.get a) "class" = none
    · simp [getStrategyFromConfig, buildStrategyR, resolveVal, dictPop, hcl]
    · obtain ⟨cv, hcv⟩ := Option.ne_none_iff_exists'.mp hcl
      cases cv with
      | vStr c =>
        by_cases hr : c ∈ reg <;>
          simp [getStrategyFromConfig, buildStrategyR, resolveVal, dictPop, hcv, hr]
      | vNone => simp [getStrategyFromConfig, buildStrategyR, resolveVal, dictPop, hcv]
      | vRef b2 => simp [getStrategyFromConfig, buildStrategyR, resolveVal, dictPop, hcv]

theorem getStrategy_heap_cases (h : Heap) (msg : String) (reg : List String) (v : PVal) :
    (getStrategyFromConfig h msg reg v).1 = h ∨
    (∃ a, v = PVal.vRef a ∧
      (getStrategyFromConfig h msg reg v).1 = h.set a (dictErase (h.get a) "class")) := by
  cases v with
  | vNone => exact Or.inl rfl
  | vStr s =>
    left
    by_cases hc : strContains s "class" <;> simp [getStrategyFromConfig, hc]
  | vRef a =>
    by_cases hcl : dictLookup (h.get a) "class" = none
    · exact Or.inl (by simp [getStrategyFromConfig, dictPop, hcl])
    · right
      refine ⟨a, rfl, ?_⟩
      obtain ⟨cv, hcv⟩ := Option.ne_none_iff_exists'.mp hcl
      cases cv with
      | vStr c =>
        by_cases hr : c ∈ reg <;> simp [getStrategyFromConfig, dictPop, hcv, hr]
      | vNone => simp [getStrategyFromConfig, dictPop, hcv]
      | vRef b2 => simp [getStrategyFromConfig, dictPop, hcv]

/--  Invariant carried through `studyLoad`: `h` extends `base` untouched, the working
     copy lives at `ca` (a fresh address), its resolved contents equal the snapshot
     `snap`, and its references are fresh (allocated after `base`, before `ca`) and
     mutually distinct. -/
structure PopInv (base h : Heap) (ca : Nat) (snap : RDict) : Prop where
  hca : ca < h.size
  hbase : base.size ≤ ca
  hpres : base.preserved h
  hsnap : snapshotOf h (h.get ca) = snap
  hrefs : ∀ kv ∈ h.get ca, ∀ b, kv.2 = PVal.vRef b → base.size ≤ b ∧ b < ca
  hnodup : (refsOf (h.get ca)).Nodup

theorem popBuild_spec (base h : Heap) (ca : Nat) (key msg : String) (reg : List String)
    (snap : RDict) (inv : PopInv base h ca snap) :
    (popBuild h ca key msg reg).2 = (popBuildR snap key msg reg).2 ∧
    PopInv base (popBuild h ca key msg reg).1 ca (popBuildR snap key msg reg).1 := by
  obtain ⟨hca, hbase, hpres, hsnap, hrefs, hnodup⟩ := inv
  have hlk : dictLookup snap key = (dictLookup (h.get ca) key).map (resolveVal h) := by
    rw [← hsnap]
    exact dictLookup_map _ _ _
  have her : dictErase snap key = snapshotOf h (dictErase (h.get ca) key) := by
    rw [← hsnap]
    exact dictErase_map _ _ _
  have hg2 : (h.set ca (dictErase (h.get ca) key)).get ca = dictErase (h.get ca) key :=
    Heap.get_set_self h ca _ hca
  have hp2 : base.preserved (h.set ca (dictErase (h.get ca) key)) :=
    Heap.preserved_set_of base h ca _ hpres hbase
  have hrefs2 : ∀ kv ∈ dictErase (h.get ca) key, ∀ b, kv.2 = PVal.vRef b →
      base.size ≤ b ∧ b < ca :=
    fun kv hkv b hb => hrefs kv (dictErase_subset _ _ kv hkv) b hb
  have hnodup2 : (refsOf (dictErase (h.get ca) key)).Nodup :=
    hnodup.sublist (refsOf_erase_sublist _ _)
  have hs2 : snapshotOf (h.set ca (dictErase (h.get ca) key)) (dictErase (h.get ca) key)
      = snapshotOf h (dictErase (h.get ca) key) := by
    apply snapshotOf_congr
    intro kv hkv b hb
    have hb' := hrefs2 kv hkv b hb
    exact Heap.get_set_ne h ca b _ (by omega)
  cases hlko : dictLookup (h.get ca) key with
  | none =>
    have hsl : dictLookup snap key = none := by rw [hlk, hlko]; rfl
    have e1 : popBuild h ca key msg reg
        = (h.set ca (dictErase (h.get ca) key), Except.error (StudyExc.keyError key)) := by
      simp [popBuild, dictPop, hlko]
    have e2 : popBuildR snap key msg reg
        = (dictErase snap key, Except.error (StudyExc.keyError key)) := by
      simp [popBuildR, dictPop, hsl]
    rw [e1, e2]
    refine ⟨rfl, ?_⟩
    exact {
      hca := by rw [Heap.size_set]; exact hca
      hbase := hbase
      hpres := hp2
      hsnap := by rw [hg2, hs2, her]
      hrefs := by rw [hg2]; exact hrefs2
      hnodup := by rw [hg2]; exact hnodup2 }
  | some cv =>
    have hsl : dictLookup snap key = some (resolveVal h cv) := by rw [hlk, hlko]; rfl
    have hres : resolveVal (h.set ca (dictErase (h.get ca) key)) cv = resolveVal h cv := by
      cases cv with
      | vRef b =>
        obtain ⟨k', hk'⟩ := dictLookup_mem _ _ _ hlko
        have hb := hrefs (k', PVal.vRef b) hk' b rfl
        simp [resolveVal, Heap.get_set_ne h ca b _ (by omega)]
      | vStr s => rfl
      | vNone => rfl
    have e1 : popBuild h ca key msg reg
        = getStrategyFromConfig (h.set ca (dictErase (h.get ca) key)) msg reg cv := by
      simp [popBuild, dictPop, hlko]
    have e2 : popBuildR snap key msg reg
        = (dictErase snap key, buildStrategyR msg reg (resolveVal h cv)) := by
      simp [popBuildR, dictPop, hsl]
    rw [e1, e2]
    constructor
    · rw [getStrategy_result_eq, hres]
    · rcases getStrategy_heap_cases (h.set ca (dictErase (h.get ca) key)) msg reg cv with
        heq | ⟨b, hcvb, heq⟩
      · rw [heq]
        exact {
          hca := by rw [Heap.size_set]; exact hca
          hbase := hbase
          hpres := hp2
          hsnap := by rw [hg2, hs2, her]
          hrefs := by rw [hg2]; exact hrefs2
          hnodup := by rw [hg2]; exact hnodup2 }
      · subst hcvb
        obtain ⟨k', hk'⟩ := dictLookup_mem _ _ _ hlko
        have hb := hrefs (k', PVal.vRef b) hk' b rfl
        have hbnot : b ∉ refsOf (dictErase (h.get ca) key) :=
          refs_erase_not_mem _ _ _ hnodup hlko
        rw [heq]
        have hg3 : ((h.set ca (dictErase (h.get ca) key)).set b
            (dictErase ((h.set ca (dictErase (h.get ca) key)).get b) "class")).get ca
            = dictErase (h.get ca) key := by
          rw [Heap.get_set_ne _ b ca _ (by omega), hg2]
        have hs3 : snapshotOf ((h.set ca (dictErase (h.get ca) key)).set b
              (dictErase ((h.set ca (dictErase (h.get ca) key)).get b) "class"))
              (dictErase (h.get ca) key)
            = snapshotOf (h.set ca (dictErase (h.get ca) key))
              (dictErase (h.get ca) key) := by
          apply snapshotOf_congr
          intro kv hkv c hc
          have hcc := hrefs2 kv hkv c hc
          have hcb : c ≠ b := by
            intro hcb
            exact hbnot (hcb ▸ entry_ref_mem_refsOf _ kv c hkv hc)
          exact Heap.get_set_ne _ b c _ (fun hbc => hcb hbc.symm)
        exact {
          hca := by rw [Heap.size_set, Heap.size_set]; exact hca
          hbase := hbase
          hpres := Heap.preserved_set_of base _ b _ hp2 hb.1
          hsnap := by rw [hg3, hs3, hs2, her]
          hrefs := by rw [hg3]; exact hrefs2
          hnodup := by rw [hg3]; exact hnodup2 }

theorem deepcopy_inv (h : Heap) (a : Nat) (ha : a < h.size)
    (hrefs : ∀ kv ∈ h.get a, ∀ b, kv.2 = PVal.vRef b → b < h.size) :
    PopInv h (deepcopyDict h a).1 (deepcopyDict h a).2 (snapshotDict h a) := by
  have hpc := copyEntries_preserved (h.get a) h
  have hpa : (copyEntries h (h.get a)).1.preserved (deepcopyDict h a).1 :=
    Heap.preserved_alloc _ _
  have hget : (deepcopyDict h a).1.get (deepcopyDict h a).2 = (copyEntries h (h.get a)).2 :=
    Heap.get_alloc_self _ _
  refine {
    hca := ?_
    hbase := hpc.1
    hpres := Heap.preserved_trans hpc hpa
    hsnap := ?_
    hrefs := ?_
    hnodup := ?_ }
  · rw [show (deepcopyDict h a).1.size = (copyEntries h (h.get a)).1.size + 1 from
      Heap.size_alloc _ _,
      show (deepcopyDict h a).2 = (copyEntries h (h.get a)).1.size from rfl]
    omega
  · rw [hget]
    exact copyEntries_snapshot (h.get a) h _ hrefs hpa
  · intro kv hkv b hb
    rw [hget] at hkv
    exact copyEntries_refs_range (h.get a) h kv hkv b hb
  · rw [hget]
    exact copyEntries_refs_nodup (h.get a) h

theorem studyLoad_spec (h : Heap) (a : Nat) (sn : String) (sReg pReg : List String)
    (ln : String) (ha : a < h.size)
    (hrefs : ∀ kv ∈ h.get a, ∀ b, kv.2 = PVal.vRef b → b < h.size) :
    h.preserved (studyLoad h a sn sReg pReg ln).1 ∧
    (studyLoad h a sn sReg pReg ln).2 =
      requestOfSnapshot (snapshotDict h a) sn sReg pReg ln := by
  have inv0 := deepcopy_inv h a ha hrefs
  have s1 := popBuild_spec h (deepcopyDict h a).1 (deepcopyDict h a).2 "sampler"
    (missingClassMsg "sampler" sn) sReg (snapshotDict h a) inv0
  cases hr1 : (popBuild (deepcopyDict h a).1 (deepcopyDict h a).2 "sampler"
      (missingClassMsg "sampler" sn) sReg).2 with
  | error e =>
    have hrR : (popBuildR (snapshotDict h a) "sampler" (missingClassMsg "sampler" sn)
        sReg).2 = Except.error e := by rw [← s1.1, hr1]
    constructor
    · have e1 : (studyLoad h a sn sReg pReg ln).1
          = (popBuild (deepcopyDict h a).1 (deepcopyDict h a).2 "sampler"
              (missingClassMsg "sampler" sn) sReg).1 := by
        simp [studyLoad, hr1]
      rw [e1]
      exact s1.2.hpres
    · have e2 : (studyLoad h a sn sReg pReg ln).2 = Except.error e := by
        simp [studyLoad, hr1]
      rw [e2]
      simp [requestOfSnapshot, hrR]
  | ok sampler =>
    have hrR : (popBuildR (snapshotDict h a) "sampler" (missingClassMsg "sampler" sn)
        sReg).2 = Except.ok sampler := by rw [← s1.1, hr1]
    have s2 := popBuild_spec h
      (popBuild (deepcopyDict h a).1 (deepcopyDict h a).2 "sampler"
        (missingClassMsg "sampler" sn) sReg).1
      (deepcopyDict h a).2 "pruner" (missingClassMsg "pruner" sn) pReg
      (popBuildR (snapshotDict h a) "sampler" (missingClassMsg "sampler" sn) sReg).1
      s1.2
    cases hr2 : (popBuild
        (popBuild (deepcopyDict h a).1 (deepcopyDict h a).2 "sampler"
          (missingClassMsg "sampler" sn) sReg).1
        (deepcopyDict h a).2 "pruner" (missingClassMsg "pruner" sn) pReg).2 with
    | error e =>
      have hrR2 : (popBuildR
          (popBuildR (snapshotDict h a) "sampler" (missingClassMsg "sampler" sn) sReg).1
          "pruner" (missingClassMsg "pruner" sn) pReg).2 = Except.error e := by
        rw [← s2.1, hr2]
      constructor
      · have e1 : (studyLoad h a sn sReg pReg ln).1
            = (popBuild
                (popBuild (deepcopyDict h a).1 (deepcopyDict h a).2 "sampler"
                  (missingClassMsg "sampler" sn) sReg).1
                (deepcopyDict h a).2 "pruner" (missingClassMsg "pruner" sn) pReg).1 := by
          simp [studyLoad, hr1, hr2]
        rw [e1]
        exact s2.2.hpres
      · have e2 : (studyLoad h a sn sReg pReg ln).2 = Except.error e := by
          simp [studyLoad, hr1, hr2]
        rw [e2]
        simp [requestOfSnapshot, hrR, hrR2]
    | ok pruner =>
      have hrR2 : (popBuildR
          (popBuildR (snapshotDict h a) "sampler" (missingClassMsg "sampler" sn) sReg).1
          "pruner" (missingClassMsg "pruner" sn) pReg).2 = Except.ok pruner := by
        rw [← s2.1, hr2]
      constructor
      · have e1 : (studyLoad h a sn sReg pReg ln).1
            = (popBuild
                (popBuild (deepcopyDict h a).1 (deepcopyDict h a).2 "sampler"
                  (missingClassMsg "sampler" sn) sReg).1
                (deepcopyDict h a).2 "pruner" (missingClassMsg "pruner" sn) pReg).1 := by
          simp [studyLoad, hr1, hr2]
        rw [e1]
        exact s2.2.hpres
      · have e2 : (studyLoad h a sn sReg pReg ln).2
            = Except.ok ⟨ln, sampler, pruner⟩ := by
          simp [studyLoad, hr1, hr2]
        rw [e2]
        simp [requestOfSnapshot, hrR, hrR2]

theorem wfLoadArgs_lt (h : Heap) (a : Nat) (hwf : wfLoadArgs h a = true) : a < h.size := by
  simp only [wfLoadArgs, Bool.and_eq_true, decide_eq_true_eq] at hwf
  exact hwf.1

theorem wfLoadArgs_refs (h : Heap) (a : Nat) (hwf : wfLoadArgs h a = true) :
    ∀ kv ∈ h.get a, ∀ b, kv.2 = PVal.vRef b → b < h.size := by
  simp only [wfLoadArgs, Bool.and_eq_true, List.all_eq_true, decide_eq_true_eq] at hwf
  intro kv hkv b hb
  have hv := hwf.2 kv hkv
  rw [hb] at hv
  simp only [wfVal, Bool.and_eq_true, decide_eq_true_eq] at hv
  exact hv.1

def witnessHeap : Heap :=
  ⟨[[("class", PVal.vStr "TPESampler"), ("n_startup_trials", PVal.vStr "10")]]⟩

def witnessHeapNoClass : Heap := ⟨[[("n_startup_trials", PVal.vStr "10")]]⟩

def witnessHeapLoadArgs : Heap :=
  ⟨[[("class", PVal.vStr "TPESampler"), ("n_startup_trials", PVal.vStr "10")],
    [("sampler", PVal.vRef 0), ("pruner", PVal.vNone)]]⟩

/-!  Claims C7, C8 and C10. -/

/-- Claim C7: building a sampler or pruner from a config dict with a `class` key whose
name resolves in the registry constructs exactly one strategy instance whose keyword
arguments are precisely the remaining entries, and destructively removes the `class`
key from the input dict, which afterwards no longer contains `class`. -/
theorem strategy_build_consumes_class_key (h : Heap) (a : Nat) (sn x : String)
    (samplerRegistry prunerRegistry : List String)
    (ha : a < h.size) (hnd : (dictKeys (h.get a)).Nodup)
    (hx : dictLookup (h.get a) "class" = some (PVal.vStr x))
    (hxs : x ∈ samplerRegistry) (hxp : x ∈ prunerRegistry) :
    getSamplerFromConfig h sn samplerRegistry (PVal.vRef a) =
      (h.set a (dictErase (h.get a) "class"),
        Except.ok (some (Strategy.mk x (dictErase (h.get a) "class")))) ∧
    dictLookup ((getSamplerFromConfig h sn samplerRegistry (PVal.vRef a)).1.get a)
      "class" = none ∧
    getPrunerFromConfig h sn prunerRegistry (PVal.vRef a) =
      (h.set a (dictErase (h.get a) "class"),
        Except.ok (some (Strategy.mk x (dictErase (h.get a) "class")))) := by
  have e1 : getSamplerFromConfig h sn samplerRegistry (PVal.vRef a) =
      (h.set a (dictErase (h.get a) "class"),
        Except.ok (some (Strategy.mk x (dictErase (h.get a) "class")))) := by
    simp [getSamplerFromConfig, getStrategyFromConfig, dictPop, hx, hxs]
  refine ⟨e1, ?_, ?_⟩
  · rw [e1]
    show dictLookup ((h.set a (dictErase (h.get a) "class")).get a) "class" = none
    rw [Heap.get_set_self h a _ ha]
    exact dictLookup_erase_self_of_nodup _ _ hnd
  · simp [getPrunerFromConfig, getStrategyFromConfig, dictPop, hx, hxp]

theorem strategy_build_consumes_class_key_witness :
    getSamplerFromConfig witnessHeap "study1" ["TPESampler"] (PVal.vRef 0) =
      (witnessHeap.set 0 (dictErase (witnessHeap.get 0) "class"),
        Except.ok (some (Strategy.mk "TPESampler" (dictErase (witnessHeap.get 0) "class")))) ∧
    dictLookup ((getSamplerFromConfig witnessHeap "study1" ["TPESampler"]
      (PVal.vRef 0)).1.get 0) "class" = none :=
  have hmain := strategy_build_consumes_class_key witnessHeap 0 "study1" "TPESampler"
    ["TPESampler"] ["TPESampler"] (by decide) (by decide) (by decide)
    (by decide) (by decide)
  ⟨hmain.1, hmain.2.1⟩

/-- Claim C8: a sampler or pruner config dict that is not `None` and lacks a `class`
key makes the build fail, regardless of the registry's contents, with a `ValueError`
whose message names the logical study being loaded; and building from a `None` config
always returns `None`. -/
theorem strategy_build_missing_class_or_none (h : Heap) (a : Nat) (sn : String)
    (samplerRegistry prunerRegistry : List String)
    (hmiss : dictLookup (h.get a) "class" = none) :
    getSamplerFromConfig h sn samplerRegistry (PVal.vRef a) =
      (h, Except.error (StudyExc.valueError (missingClassMsg "sampler" sn))) ∧
    getPrunerFromConfig h sn prunerRegistry (PVal.vRef a) =
      (h, Except.error (StudyExc.valueError (missingClassMsg "pruner" sn))) ∧
    (∃ pre post, missingClassMsg "sampler" sn = pre ++ sn ++ post) ∧
    (∃ pre post, missingClassMsg "pruner" sn = pre ++ sn ++ post) ∧
    getSamplerFromConfig h sn samplerRegistry PVal.vNone = (h, Except.ok none) ∧
    getPrunerFromConfig h sn prunerRegistry PVal.vNone = (h, Except.ok none) := by
  refine ⟨?_, ?_, ⟨_, _, rfl⟩, ⟨_, _, rfl⟩, rfl, rfl⟩
  · simp [getSamplerFromConfig, getStrategyFromConfig, hmiss]
  · simp [getPrunerFromConfig, getStrategyFromConfig, hmiss]

theorem strategy_build_missing_class_or_none_witness :
    getSamplerFromConfig witnessHeapNoClass "study1" [] (PVal.vRef 0) =
      (witnessHeapNoClass,
        Except.error (StudyExc.valueError (missingClassMsg "sampler" "study1"))) ∧
    getSamplerFromConfig witnessHeapNoClass "study1" [] PVal.vNone =
      (witnessHeapNoClass, Except.ok none) :=
  have hmain := strategy_build_missing_class_or_none witnessHeapNoClass 0 "study1" [] []
    (by decide)
  ⟨hmain.1, hmain.2.2.2.2.1⟩

/-- Claim C10: `StudyDataset.load` deep-copies the stored load args before the
destructive `class`-key removal, so every pre-existing heap cell — in particular
`self._load_args` and its nested sampler and pruner config dicts — is unchanged by a
load call, and a repeated load produces the same result, building the strategy objects
from the same configuration. -/
theorem studyLoad_preserves_load_args (h : Heap) (a : Nat) (sn ln : String)
    (sReg pReg : List String) (hwf : wfLoadArgs h a = true) :
    (∀ b, b < h.size → (studyLoad h a sn sReg pReg ln).1.get b = h.get b) ∧
    snapshotDict (studyLoad h a sn sReg pReg ln).1 a = snapshotDict h a ∧
    (studyLoad (studyLoad h a sn sReg pReg ln).1 a sn sReg pReg ln).2 =
      (studyLoad h a sn sReg pReg ln).2 := by
  have ha := wfLoadArgs_lt h a hwf
  have hrefs := wfLoadArgs_refs h a hwf
  obtain ⟨hp, hs⟩ := studyLoad_spec h a sn sReg pReg ln ha hrefs
  have hga : (studyLoad h a sn sReg pReg ln).1.get a = h.get a := hp.2 a ha
  have hsnap : snapshotDict (studyLoad h a sn sReg pReg ln).1 a = snapshotDict h a := by
    show snapshotOf _ ((studyLoad h a sn sReg pReg ln).1.get a) = _
    rw [hga]
    exact snapshotOf_congr _ h _ (fun kv hkv b hb => hp.2 b (hrefs kv hkv b hb))
  refine ⟨hp.2, hsnap, ?_⟩
  have ha1 : a < (studyLoad h a sn sReg pReg ln).1.size := Nat.lt_of_lt_of_le ha hp.1
  have hrefs1 : ∀ kv ∈ (studyLoad h a sn sReg pReg ln).1.get a, ∀ b,
      kv.2 = PVal.vRef b → b < (studyLoad h a sn sReg pReg ln).1.size := by
    rw [hga]
    intro kv hkv b hb
    exact Nat.lt_of_lt_of_le (hrefs kv hkv b hb) hp.1
  obtain ⟨hp1, hs1⟩ :=
    studyLoad_spec (studyLoad h a sn sReg pReg ln).1 a sn sReg pReg ln ha1 hrefs1
  rw [hs1, hs, hsnap]

theorem studyLoad_preserves_load_args_witness :
    (∀ b, b < witnessHeapLoadArgs.size →
      (studyLoad witnessHeapLoadArgs 1 "study1" ["TPESampler"] ["NopPruner"]
        "study1/v/study1").1.get b = witnessHeapLoadArgs.get b) ∧
    snapshotDict (studyLoad witnessHeapLoadArgs 1 "study1" ["TPESampler"] ["NopPruner"]
        "study1/v/study1").1 1 = snapshotDict witnessHeapLoadArgs 1 ∧
    (studyLoad (studyLoad witnessHeapLoadArgs 1 "study1" ["TPESampler"] ["NopPruner"]
        "study1/v/study1").1 1 "study1" ["TPESampler"] ["NopPruner"] "study1/v/study1").2 =
      (studyLoad witnessHeapLoadArgs 1 "study1" ["TPESampler"] ["NopPruner"]
        "study1/v/study1").2 :=
  studyLoad_preserves_load_args witnessHeapLoadArgs 1 "study1" "study1/v/study1"
    ["TPESampler"] ["NopPruner"] (by decide)
